import Mathlib

/-!
Verification of the `PostRenderer` module (`js/main.js`): a browser-side
script that fetches a JSON array of post records, renders them into a
container element, and offers tag-filter and free-text-search operations
over the rendered elements.

The JavaScript is shallowly embedded:
* strings are `String` (lists of characters);
* JSON/JS values appearing in post fields are the inductive `JSValue`;
* code that can throw a `TypeError` returns `Except JSError _`;
* the DOM container is `Option ContainerContent` (`none` = the element
  with id `posts-container` is missing from the document);
* the browser's HTML parsing of markup produced by interpolating
  `escapeHtml` output is modelled by `htmlDecode`, which decodes exactly
  the five entities `escapeHtml` emits (the `textContent` of a rendered
  node whose markup was an escaped string is the decoded string).
-/

namespace PostRenderer

/-! ## The Sanitizer: `escapeHtml` (main.js lines 131-140) -/

/-- The lookup object `map` of `escapeHtml`: `{'&': '&amp;', '<': '&lt;',
'>': '&gt;', '"': '&quot;', "'": '&#039;'}`.  Keys absent from the object
yield JS `undefined`. -/
def escapeMap : Char → Option String
  | '&' => some "&amp;"
  | '<' => some "&lt;"
  | '>' => some "&gt;"
  | '"' => some "&quot;"
  | '\'' => some "&#039;"
  | _ => none

/-- The regex character class `[&<>"']` of `escapeHtml`. -/
def specialClass (c : Char) : Bool :=
  c = '&' || c = '<' || c = '>' || c = '"' || c = '\''

/-- The replacement callback `m => map[m]`: a character matched by the
class is replaced by the mapped entity (a key missing from `map` would be
the string coercion of `undefined`, which never happens since the class
and the map agree). -/
def escapeCharJS (m : Char) : List Char :=
  ((escapeMap m).getD "undefined").data

/-- `text.replace(/[class]/g, f)` for a single-character class: scan the
characters left to right, replacing each matching character by the
callback's output and keeping every other character. -/
def replaceChars (cls : Char → Bool) (f : Char → List Char) : List Char → List Char
  | [] => []
  | c :: rest => (if cls c then f c else [c]) ++ replaceChars cls f rest

/-- `escapeHtml(text)` for a string argument:
`text.replace(/[&<>"']/g, m => map[m])`. -/
def escapeHtml (text : String) : String :=
  ⟨replaceChars specialClass escapeCharJS text.data⟩

/-! ## The browser's entity decoding

`htmlDecode` models how the browser turns markup text back into
`textContent`: it decodes the five entities `escapeHtml` produces and
leaves every other character alone. -/

/-- Decode `&amp; &lt; &gt; &quot; &#039;` in a character list. -/
def htmlDecodeAux : List Char → List Char
  | [] => []
  | c :: rest =>
    if c = '&' then
      match rest with
      | 'a' :: 'm' :: 'p' :: ';' :: r => '&' :: htmlDecodeAux r
      | 'l' :: 't' :: ';' :: r => '<' :: htmlDecodeAux r
      | 'g' :: 't' :: ';' :: r => '>' :: htmlDecodeAux r
      | 'q' :: 'u' :: 'o' :: 't' :: ';' :: r => '"' :: htmlDecodeAux r
      | '#' :: '0' :: '3' :: '9' :: ';' :: r => '\'' :: htmlDecodeAux r
      | r => '&' :: htmlDecodeAux r
    else c :: htmlDecodeAux rest

/-- The `textContent` of a text node whose markup source is `s`. -/
def htmlDecode (s : String) : String :=
  ⟨htmlDecodeAux s.data⟩

/-! ## Spec-side characterisations of the Sanitizer -/

/-- Modelled from the spec: the per-character substitution table —
"replace every occurrence of the five characters `&`, `<`, `>`, `"`, `'`
with their corresponding named/numeric HTML entities, leaving all other
characters unchanged". -/
def sanitizeSpecChar : Char → String
  | '&' => "&amp;"
  | '<' => "&lt;"
  | '>' => "&gt;"
  | '"' => "&quot;"
  | '\'' => "&#039;"
  | c => String.singleton c

/-- Modelled from the spec: sanitize a string by substituting each
character in place. -/
def escapeHtmlSpec (s : String) : String :=
  ⟨s.data.flatMap fun c => (sanitizeSpecChar c).data⟩

/-- Does the string contain one of the five HTML-significant characters? -/
def containsSpecial (s : String) : Bool :=
  s.data.any specialClass

/-- Scan for a *raw* HTML-significant character: any `<`, `>`, `"` or `'`
at all, or a `&` that does not begin one of the five entities. -/
def rawFree : List Char → Bool
  | [] => true
  | c :: rest =>
    if c = '&' then
      match rest with
      | 'a' :: 'm' :: 'p' :: ';' :: r => rawFree r
      | 'l' :: 't' :: ';' :: r => rawFree r
      | 'g' :: 't' :: ';' :: r => rawFree r
      | 'q' :: 'u' :: 'o' :: 't' :: ';' :: r => rawFree r
      | '#' :: '0' :: '3' :: '9' :: ';' :: r => rawFree r
      | _ => false
    else if c = '<' || c = '>' || c = '"' || c = '\'' then false
    else rawFree rest

/-- No raw occurrence of the five characters in the string. -/
def noRawSpecials (s : String) : Bool :=
  rawFree s.data

/-- Modelled from the spec: replacing only the character `&` by `&amp;`
("each `&` of an entity becomes `&amp;`"). -/
def escapeAmpOnly (s : String) : String :=
  ⟨replaceChars (fun c => c = '&') (fun _ => "&amp;".data) s.data⟩

/-! ## JavaScript values and the fallibility of the Sanitizer

`escapeHtml` calls `text.replace(...)`: only strings have a `replace`
method, so applying it to any non-string value throws a `TypeError`. -/

/-- The JSON/JS values that can sit in a post record's fields.
`undefined` is the value of an absent field. -/
inductive JSValue where
  | undefined
  | null
  | bool (b : Bool)
  | num (n : Int)
  | str (s : String)
  | arr (xs : List JSValue)

/-- JS truthiness: `undefined`, `null`, `false`, `0` and `""` are falsy;
every other modelled value (including any array) is truthy. -/
def truthy : JSValue → Bool
  | .undefined => false
  | .null => false
  | .bool b => b
  | .num n => n ≠ 0
  | .str s => s ≠ ""
  | .arr _ => true

/-- JS `a || b`: the first operand if truthy, otherwise the second. -/
def jsOr (a b : JSValue) : JSValue :=
  if truthy a then a else b

/-- `Array.isArray`. -/
def isArray : JSValue → Bool
  | .arr _ => true
  | _ => false

/-- The elements of an array value (unused on non-arrays). -/
def arrElems : JSValue → List JSValue
  | .arr xs => xs
  | _ => []

/-- Is the value a string? -/
def isStr : JSValue → Bool
  | .str _ => true
  | _ => false

/-- The only kind of error this code can throw at render time. -/
inductive JSError where
  | typeError
deriving DecidableEq, Repr

/-- `escapeHtml` applied to an arbitrary JS value: `text.replace` throws a
`TypeError` unless `text` is a string. -/
def escapeHtmlJS : JSValue → Except JSError String
  | .str s => .ok (escapeHtml s)
  | _ => .error .typeError

/-! ## The Formatter: `formatDate` (main.js lines 110-124)

`new Date(dateString)` never throws: for an unparsable string it yields an
*Invalid Date* object, and `toLocaleDateString` on an Invalid Date returns
the string `"Invalid Date"` (again without throwing).  Consequently the
source's `catch` branch (`return dateString`) is unreachable and the
embedding has no fallback path.  The platform's date parsing is modelled
for ISO `YYYY-MM-DD` strings (parsed as a UTC calendar date); every other
string of the modelled subset yields an Invalid Date, as the engine does
for inputs such as `"not-a-date"`.  The host time zone is taken to be UTC,
so a date-only string renders as the same calendar date. -/

/-- The numeric value of a decimal digit character, if it is one. -/
def digitVal (c : Char) : Option Nat :=
  if c.isDigit then some (c.toNat - 48) else none

/-- Gregorian leap year. -/
def isLeapYear (y : Nat) : Bool :=
  (y % 4 = 0 && y % 100 ≠ 0) || y % 400 = 0

/-- Days in a month of a given year. -/
def daysInMonth (y m : Nat) : Nat :=
  if m = 2 then (if isLeapYear y then 29 else 28)
  else if m = 4 ∨ m = 6 ∨ m = 9 ∨ m = 11 then 30
  else 31

/-- `new Date(s)` for the modelled subset: an ISO `YYYY-MM-DD` string
yields the corresponding (year, month, day); anything else is an Invalid
Date (`none`). -/
def parseISODate (s : String) : Option (Nat × Nat × Nat) :=
  match s.data with
  | [y1, y2, y3, y4, '-', m1, m2, '-', d1, d2] => do
    let a ← digitVal y1
    let b ← digitVal y2
    let c ← digitVal y3
    let d ← digitVal y4
    let e ← digitVal m1
    let f ← digitVal m2
    let g ← digitVal d1
    let h ← digitVal d2
    let year := 1000 * a + 100 * b + 10 * c + d
    let month := 10 * e + f
    let day := 10 * g + h
    if 1 ≤ month ∧ month ≤ 12 ∧ 1 ≤ day ∧ day ≤ daysInMonth year month then
      some (year, month, day)
    else none
  | _ => none

/-- The en-US long month names. -/
def monthNameEnUS : Nat → String
  | 1 => "January"
  | 2 => "February"
  | 3 => "March"
  | 4 => "April"
  | 5 => "May"
  | 6 => "June"
  | 7 => "July"
  | 8 => "August"
  | 9 => "September"
  | 10 => "October"
  | 11 => "November"
  | 12 => "December"
  | _ => ""

/-- `date.toLocaleDateString('en-US', {year:'numeric', month:'long',
day:'numeric'})`: `"Month D, YYYY"` for a valid date, the string
`"Invalid Date"` for an Invalid Date. -/
def toLocaleDateStringEnUS : Option (Nat × Nat × Nat) → String
  | none => "Invalid Date"
  | some (y, m, d) => monthNameEnUS m ++ " " ++ toString d ++ ", " ++ toString y

/-- `formatDate(dateString)`.  The argument is the record's `date` field:
`none` models an absent field (`undefined`).  `if (!dateString) return ''`
catches both the absent and the empty case; otherwise the date is
constructed and formatted, neither of which throws. -/
def formatDate : Option String → String
  | none => ""
  | some s => if s = "" then "" else toLocaleDateStringEnUS (parseISODate s)

/-! ## Post records and rendered post elements -/

/-- A post record as delivered by `data/posts.json`.  Every field may be
absent (`JSValue.undefined`).  The `date` field is typed as the spec's
"date-like text, optional": `none` models an absent field. -/
structure Post where
  id : JSValue := .undefined
  title : JSValue := .undefined
  excerpt : JSValue := .undefined
  description : JSValue := .undefined
  image : JSValue := .undefined
  tags : JSValue := .undefined
  date : Option String := none
  author : JSValue := .undefined
  url : JSValue := .undefined

/-- The `article.post` element built by `createPostElement`, recorded by
the markup fragments interpolated into its `innerHTML` template:
* `imageHTML` is the `<img ...>` fragment, `""` when the image is absent;
* `titleHtml` / `excerptHtml` are the escaped strings inside
  `h2.post-title` / `p.post-excerpt`;
* `tagsHTML` is `none` when no `div.post-tags` block is emitted, and
  `some l` when the block holds one `span.tag` per entry of `l` (each
  entry the escaped string inside that span), in order;
* `dateText` is the text inside `span.post-date`;
* `authorHtml` is the escaped author of `span.post-author`, `none` when
  the byline is omitted;
* `linkHref` is the escaped `href` of `a.post-link`;
* `display` is the element's `style.display` (`""` when untouched). -/
structure PostElement where
  dataId : JSValue
  imageHTML : String
  titleHtml : String
  excerptHtml : String
  tagsHTML : Option (List String)
  dateText : String
  authorHtml : Option String
  linkHref : String
  display : String

/-- The `imageHTML` fragment: built only when `post.image` is truthy, and
its construction escapes the image and the title. -/
def imageHTMLof (post : Post) : Except JSError String :=
  if truthy post.image then do
    let src ← escapeHtmlJS post.image
    let alt ← escapeHtmlJS post.title
    pure ("<img src=\"" ++ src ++ "\" alt=\"" ++ alt ++ "\" class=\"post-image\">")
  else pure ""

/-- `list.map f` for a fallible `f`, aborting at the first thrown error
(exactly what a thrown exception does to `Array.prototype.map` and to
`forEach`). -/
def mapMexcept (f : α → Except JSError β) : List α → Except JSError (List β)
  | [] => .ok []
  | a :: as => f a >>= fun b => mapMexcept f as >>= fun bs => .ok (b :: bs)

/-- The `tagsHTML` fragment: `post.tags && Array.isArray(post.tags)`
guards the block; inside it each tag is escaped into a `span.tag`. -/
def tagsHTMLof (post : Post) : Except JSError (Option (List String)) :=
  if truthy post.tags && isArray post.tags then
    mapMexcept escapeHtmlJS (arrElems post.tags) >>= fun ts => pure (some ts)
  else pure none

/-- The escaped excerpt: `escapeHtml(post.excerpt || post.description || '')`. -/
def excerptHtmlOf (post : Post) : Except JSError String :=
  escapeHtmlJS (jsOr (jsOr post.excerpt post.description) (.str ""))

/-- The author byline: `post.author ? ...escapeHtml(post.author)... : ''`. -/
def authorHtmlOf (post : Post) : Except JSError (Option String) :=
  if truthy post.author then escapeHtmlJS post.author >>= fun a => pure (some a)
  else pure none

/-- The link target: `escapeHtml(post.url || '#')`. -/
def linkHrefOf (post : Post) : Except JSError String :=
  escapeHtmlJS (jsOr post.url (.str "#"))

/-- `createPostElement(post)` (main.js lines 66-103): the fragments are
computed in source order (image, tags, then the template's title, excerpt,
date, author, url); the first `TypeError` thrown by `escapeHtml` on a
non-string aborts the construction. -/
def createPostElement (post : Post) : Except JSError PostElement := do
  let imageHTML ← imageHTMLof post
  let tagsHTML ← tagsHTMLof post
  let titleHtml ← escapeHtmlJS post.title
  let excerptHtml ← excerptHtmlOf post
  let authorHtml ← authorHtmlOf post
  let linkHref ← linkHrefOf post
  pure { dataId := post.id, imageHTML := imageHTML, titleHtml := titleHtml,
         excerptHtml := excerptHtml, tagsHTML := tagsHTML,
         dateText := formatDate post.date, authorHtml := authorHtml,
         linkHref := linkHref, display := "" }

/-! ## The container, the Renderer and the Loader -/

/-- The content of the `posts-container` element. -/
inductive ContainerContent where
  | rawHTML (s : String)
  | rendered (es : List PostElement)

/-- The document: `none` when `getElementById('posts-container')` finds
nothing. -/
def DOM : Type := Option ContainerContent

/-- The per-record article blocks currently in the container. -/
def postBlocks : ContainerContent → List PostElement
  | .rawHTML _ => []
  | .rendered es => es

/-- The markup assigned for an empty post array. -/
def noPostsHTML : String := "<p class=\"no-posts\">No posts available.</p>"

/-- The markup assigned by `displayError`. -/
def errorBoxHTML (inner : String) : String :=
  "<div class=\"error-message\">" ++ inner ++ "</div>"

/-- `renderPosts(posts)` (main.js lines 39-60): a missing container logs
and returns; otherwise the container is cleared, an empty array renders
the fixed placeholder, and else one element per record is created and
appended in order.  A `TypeError` thrown while creating an element
propagates to the caller. -/
def renderPosts (dom : DOM) (posts : List Post) : Except JSError DOM :=
  match dom with
  | none => .ok none
  | some _ =>
    if posts.length = 0 then .ok (some (.rawHTML noPostsHTML))
    else mapMexcept createPostElement posts >>= fun es => .ok (some (.rendered es))

/-- `displayError(message)` (main.js lines 146-151): when the container
exists, its content becomes the error box holding the escaped message. -/
def displayError (dom : DOM) (message : String) : DOM :=
  match dom with
  | none => none
  | some _ => some (.rawHTML (errorBoxHTML (escapeHtml message)))

/-- The fixed user-facing message of the Loader's failure path. -/
def errorMessage : String := "Failed to load posts. Please try again later."

/-- The outcome of `fetch('data/posts.json')` followed by
`response.json()`: the network call rejects, or the response has a
non-success status (`!response.ok`, thrown as an `Error`), or the body is
not valid JSON (`json()` rejects), or an array of records is obtained. -/
inductive FetchOutcome where
  | networkError
  | badStatus (status : Nat)
  | jsonError
  | ok (posts : List Post)

/-- `loadPosts()` (main.js lines 18-33): the whole load/render sequence
runs inside one `try`; any failure — network, status, parse, or a
`TypeError` thrown while rendering — is caught, logged, and turned into
`displayError(errorMessage)`.  The function is total: no error propagates
to the page. -/
def loadPosts (dom : DOM) (outcome : FetchOutcome) : DOM :=
  match outcome with
  | .networkError => displayError dom errorMessage
  | .badStatus _ => displayError dom errorMessage
  | .jsonError => displayError dom errorMessage
  | .ok posts =>
    match renderPosts dom posts with
    | .ok dom2 => dom2
    | .error _ => displayError dom errorMessage

/-! ## The post-render filters (main.js lines 157-180)

Both filters run over `document.querySelectorAll('.post')` — the list of
currently rendered post elements — and inspect `textContent`, i.e. the
decoded form of the escaped markup. -/

/-- The `textContent` of the element's `span.tag` children, in order
(empty when no tag block was rendered). -/
def tagTextContents (e : PostElement) : List String :=
  (e.tagsHTML.getD []).map htmlDecode

/-- The `textContent` of the element's `h2.post-title`. -/
def titleText (e : PostElement) : String :=
  htmlDecode e.titleHtml

/-- The `textContent` of the element's `p.post-excerpt`. -/
def excerptText (e : PostElement) : String :=
  htmlDecode e.excerptHtml

/-- Does the first list start the second?  (The matching step of the
substring search `String.prototype.includes` performs.) -/
def leadsList : List Char → List Char → Bool
  | [], _ => true
  | _ :: _, [] => false
  | a :: as, b :: bs => a == b && leadsList as bs

/-- The substring scan of `String.prototype.includes`: try a match at
every position of the haystack. -/
def listIndexSearch (needle : List Char) : List Char → Bool
  | [] => needle.isEmpty
  | hay@(_ :: tail) => leadsList needle hay || listIndexSearch needle tail

/-- JS `hay.includes(needle)`: is `needle` a contiguous substring of
`hay`? -/
def jsIncludes (hay needle : String) : Bool :=
  listIndexSearch needle.data hay.data

/-- JS `s.toLowerCase()`, character by character (the rendered text is
ASCII, where the two coincide). -/
def toLowerStr (s : String) : String :=
  ⟨s.data.map Char.toLower⟩

/-- `filterByTag(tag)`: each rendered post element is shown iff `tag` is
among the `textContent` of its tag elements. -/
def filterByTag (tag : String) (posts : List PostElement) : List PostElement :=
  posts.map fun post =>
    let tags := tagTextContents post
    { post with display := if tags.contains tag then "block" else "none" }

/-- `searchPosts(query)`: each rendered post element is shown iff the
lower-cased query occurs in its lower-cased title text or its lower-cased
excerpt text. -/
def searchPosts (query : String) (posts : List PostElement) : List PostElement :=
  let lowerQuery := toLowerStr query
  posts.map fun post =>
    let title := toLowerStr (titleText post)
    let excerpt := toLowerStr (excerptText post)
    let hit := jsIncludes title lowerQuery || jsIncludes excerpt lowerQuery
    { post with display := if hit then "block" else "none" }

/-! ## Concrete records and elements used to instantiate the theorems -/

/-- A record with a string title and a string-array tags field. -/
def postC6 : Post := { title := .str "t", tags := .arr [.str "a", .str "b"] }

/-- The element `createPostElement` builds for `postC6`. -/
def elemC6 : PostElement :=
  { dataId := .undefined, imageHTML := "", titleHtml := "t", excerptHtml := "",
    tagsHTML := some ["a", "b"], dateText := "", authorHtml := none,
    linkHref := "#", display := "" }

/-- A record whose tags field is the string `"not-an-array"`. -/
def postC6b : Post := { title := .str "t", tags := .str "not-an-array" }

/-- The element `createPostElement` builds for `postC6b`: no tag block. -/
def elemC6b : PostElement :=
  { dataId := .undefined, imageHTML := "", titleHtml := "t", excerptHtml := "",
    tagsHTML := none, dateText := "", authorHtml := none,
    linkHref := "#", display := "" }

/-- A record whose excerpt is present but empty while a description is
present. -/
def postC7 : Post := { title := .str "t", excerpt := .str "", description := .str "d" }

/-- A record with a non-empty excerpt. -/
def postC7a : Post := { title := .str "t", excerpt := .str "An excerpt" }

/-- A record with no excerpt and a non-empty description. -/
def postC7b : Post := { title := .str "t", description := .str "A description" }

/-- A record with neither excerpt nor description. -/
def postC7c : Post := { title := .str "t" }

/-- A rendered element carrying the single tag `x`. -/
def elemTagX : PostElement :=
  { dataId := .undefined, imageHTML := "", titleHtml := "t1", excerptHtml := "",
    tagsHTML := some ["x"], dateText := "", authorHtml := none,
    linkHref := "#", display := "" }

/-- A rendered element carrying the single tag `y`. -/
def elemTagY : PostElement :=
  { dataId := .undefined, imageHTML := "", titleHtml := "t2", excerptHtml := "",
    tagsHTML := some ["y"], dateText := "", authorHtml := none,
    linkHref := "#", display := "" }

/-- `elemTagX` as `filterByTag "x"` leaves it: shown. -/
def elemTagXshown : PostElement := { elemTagX with display := "block" }

/-- `elemTagY` as `filterByTag "x"` leaves it: hidden. -/
def elemTagYhidden : PostElement := { elemTagY with display := "none" }

/-- A rendered element whose title contains `Category`. -/
def elemCat : PostElement :=
  { dataId := .undefined, imageHTML := "", titleHtml := "On Category Theory",
    excerptHtml := "abstract nonsense", tagsHTML := none, dateText := "",
    authorHtml := none, linkHref := "#", display := "" }

/-- A rendered element whose title and excerpt lack `cat`. -/
def elemDog : PostElement :=
  { dataId := .undefined, imageHTML := "", titleHtml := "On Dogs",
    excerptHtml := "loyal friends", tagsHTML := none, dateText := "",
    authorHtml := none, linkHref := "#", display := "" }

/-- `elemCat` after `searchPosts "cat"`: shown. -/
def elemCatShown : PostElement := { elemCat with display := "block" }

/-- `elemDog` after `searchPosts "cat"`: hidden. -/
def elemDogHidden : PostElement := { elemDog with display := "none" }

/-- The element rendered for `postC7a`. -/
def elemC7a : PostElement :=
  { dataId := .undefined, imageHTML := "", titleHtml := "t",
    excerptHtml := "An excerpt", tagsHTML := none, dateText := "",
    authorHtml := none, linkHref := "#", display := "" }

/-- The element rendered for `postC7b`. -/
def elemC7b : PostElement :=
  { dataId := .undefined, imageHTML := "", titleHtml := "t",
    excerptHtml := "A description", tagsHTML := none, dateText := "",
    authorHtml := none, linkHref := "#", display := "" }

/-- The element rendered for `postC7c`. -/
def elemC7c : PostElement :=
  { dataId := .undefined, imageHTML := "", titleHtml := "t",
    excerptHtml := "", tagsHTML := none, dateText := "",
    authorHtml := none, linkHref := "#", display := "" }

/-- A well-formed record. -/
def postGood : Post := { title := .str "ok post" }

/-- A record with no title at all. -/
def postBad : Post := { excerpt := .str "orphan excerpt" }

/-! ## Lemmas about the Sanitizer -/

lemma escapeCharJS_amp : escapeCharJS '&' = ['&', 'a', 'm', 'p', ';'] := rfl

lemma escapeCharJS_lt : escapeCharJS '<' = ['&', 'l', 't', ';'] := rfl

lemma escapeCharJS_gt : escapeCharJS '>' = ['&', 'g', 't', ';'] := rfl

lemma escapeCharJS_quot : escapeCharJS '"' = ['&', 'q', 'u', 'o', 't', ';'] := rfl

lemma escapeCharJS_apos : escapeCharJS '\'' = ['&', '#', '0', '3', '9', ';'] := rfl

lemma specialClass_false {c : Char} (h1 : c ≠ '&') (h2 : c ≠ '<') (h3 : c ≠ '>')
    (h4 : c ≠ '"') (h5 : c ≠ '\'') : specialClass c = false := by
  simp [specialClass, h1, h2, h3, h4, h5]

/-- The source's per-character replacement agrees character by character
with the spec's substitution table. -/
lemma replaceChars_eq_flatMap_sanitize (cs : List Char) :
    replaceChars specialClass escapeCharJS cs
      = cs.flatMap fun c => (sanitizeSpecChar c).data := by
  induction cs with
  | nil => rfl
  | cons c rest ih =>
    simp only [replaceChars, List.flatMap_cons, ih]
    congr 1
    by_cases h1 : c = '&'
    · subst h1; rfl
    by_cases h2 : c = '<'
    · subst h2; rfl
    by_cases h3 : c = '>'
    · subst h3; rfl
    by_cases h4 : c = '"'
    · subst h4; rfl
    by_cases h5 : c = '\''
    · subst h5; rfl
    rw [specialClass_false h1 h2 h3 h4 h5, sanitizeSpecChar.eq_def]
    split <;> simp_all [String.singleton]

/-- Decoding at an `&amp;` head. -/
lemma htmlDecodeAux_amp (r : List Char) :
    htmlDecodeAux ('&' :: 'a' :: 'm' :: 'p' :: ';' :: r) = '&' :: htmlDecodeAux r := rfl

/-- Decoding at an `&lt;` head. -/
lemma htmlDecodeAux_lt (r : List Char) :
    htmlDecodeAux ('&' :: 'l' :: 't' :: ';' :: r) = '<' :: htmlDecodeAux r := rfl

/-- Decoding at an `&gt;` head. -/
lemma htmlDecodeAux_gt (r : List Char) :
    htmlDecodeAux ('&' :: 'g' :: 't' :: ';' :: r) = '>' :: htmlDecodeAux r := rfl

/-- Decoding at an `&quot;` head. -/
lemma htmlDecodeAux_quot (r : List Char) :
    htmlDecodeAux ('&' :: 'q' :: 'u' :: 'o' :: 't' :: ';' :: r) = '"' :: htmlDecodeAux r := rfl

/-- Decoding at an `&#039;` head. -/
lemma htmlDecodeAux_apos (r : List Char) :
    htmlDecodeAux ('&' :: '#' :: '0' :: '3' :: '9' :: ';' :: r) = '\'' :: htmlDecodeAux r := rfl

set_option maxHeartbeats 1600000 in
/-- Decoding a non-`&` head just keeps it. -/
lemma htmlDecodeAux_cons_of_ne {c : Char} (l : List Char) (h : c ≠ '&') :
    htmlDecodeAux (c :: l) = c :: htmlDecodeAux l := by
  rw [htmlDecodeAux.eq_def]
  split
  · simp_all
  · rename_i c2 l2 heq
    injection heq with e1 e2
    subst e1; subst e2
    rw [if_neg h]

/-- Entity decoding inverts the Sanitizer: the `textContent` of markup
produced by escaping `cs` is `cs` itself. -/
lemma htmlDecodeAux_replaceChars (cs : List Char) :
    htmlDecodeAux (replaceChars specialClass escapeCharJS cs) = cs := by
  induction cs with
  | nil => rfl
  | cons c rest ih =>
    by_cases h1 : c = '&'
    · subst h1; simp [replaceChars, specialClass, escapeCharJS_amp, htmlDecodeAux_amp, ih]
    by_cases h2 : c = '<'
    · subst h2; simp [replaceChars, specialClass, escapeCharJS_lt, htmlDecodeAux_lt, ih]
    by_cases h3 : c = '>'
    · subst h3; simp [replaceChars, specialClass, escapeCharJS_gt, htmlDecodeAux_gt, ih]
    by_cases h4 : c = '"'
    · subst h4; simp [replaceChars, specialClass, escapeCharJS_quot, htmlDecodeAux_quot, ih]
    by_cases h5 : c = '\''
    · subst h5; simp [replaceChars, specialClass, escapeCharJS_apos, htmlDecodeAux_apos, ih]
    rw [replaceChars, specialClass_false h1 h2 h3 h4 h5]
    simp only [Bool.false_eq_true, if_false, List.singleton_append]
    rw [htmlDecodeAux_cons_of_ne _ h1, ih]

/-- Round trip on strings. -/
lemma htmlDecode_escapeHtml (s : String) : htmlDecode (escapeHtml s) = s := by
  cases s with
  | mk data =>
    show (⟨htmlDecodeAux (replaceChars specialClass escapeCharJS data)⟩ : String) = _
    rw [htmlDecodeAux_replaceChars]

set_option maxHeartbeats 1600000 in
/-- A raw-scan step over a character that is none of the five. -/
lemma rawFree_cons_of_not_special {c : Char} (l : List Char) (h1 : c ≠ '&')
    (h2 : c ≠ '<') (h3 : c ≠ '>') (h4 : c ≠ '"') (h5 : c ≠ '\'') :
    rawFree (c :: l) = rawFree l := by
  rw [rawFree.eq_def]
  split
  · simp_all
  · rename_i c2 l2 heq
    injection heq with e1 e2
    subst e1; subst e2
    rw [if_neg h1, if_neg (by simp [h2, h3, h4, h5])]

/-- Raw scan at an `&amp;` head. -/
lemma rawFree_amp (r : List Char) :
    rawFree ('&' :: 'a' :: 'm' :: 'p' :: ';' :: r) = rawFree r := rfl

/-- Raw scan at an `&lt;` head. -/
lemma rawFree_lt (r : List Char) :
    rawFree ('&' :: 'l' :: 't' :: ';' :: r) = rawFree r := rfl

/-- Raw scan at an `&gt;` head. -/
lemma rawFree_gt (r : List Char) :
    rawFree ('&' :: 'g' :: 't' :: ';' :: r) = rawFree r := rfl

/-- Raw scan at an `&quot;` head. -/
lemma rawFree_quot (r : List Char) :
    rawFree ('&' :: 'q' :: 'u' :: 'o' :: 't' :: ';' :: r) = rawFree r := rfl

/-- Raw scan at an `&#039;` head. -/
lemma rawFree_apos (r : List Char) :
    rawFree ('&' :: '#' :: '0' :: '3' :: '9' :: ';' :: r) = rawFree r := rfl

/-- The Sanitizer's output never contains a raw special character. -/
lemma rawFree_replaceChars (cs : List Char) :
    rawFree (replaceChars specialClass escapeCharJS cs) = true := by
  induction cs with
  | nil => rfl
  | cons c rest ih =>
    by_cases h1 : c = '&'
    · subst h1; simp [replaceChars, specialClass, escapeCharJS_amp, rawFree_amp, ih]
    by_cases h2 : c = '<'
    · subst h2; simp [replaceChars, specialClass, escapeCharJS_lt, rawFree_lt, ih]
    by_cases h3 : c = '>'
    · subst h3; simp [replaceChars, specialClass, escapeCharJS_gt, rawFree_gt, ih]
    by_cases h4 : c = '"'
    · subst h4; simp [replaceChars, specialClass, escapeCharJS_quot, rawFree_quot, ih]
    by_cases h5 : c = '\''
    · subst h5; simp [replaceChars, specialClass, escapeCharJS_apos, rawFree_apos, ih]
    rw [replaceChars, specialClass_false h1 h2 h3 h4 h5]
    simp only [Bool.false_eq_true, if_false, List.singleton_append]
    rw [rawFree_cons_of_not_special _ h1 h2 h3 h4 h5, ih]

/-- The entity strings contain none of `< > " '`. -/
lemma escapeCharJS_no_quad {a : Char} (h : specialClass a = true) :
    ∀ c ∈ escapeCharJS a, c ≠ '<' ∧ c ≠ '>' ∧ c ≠ '"' ∧ c ≠ '\'' := by
  have : a = '&' ∨ a = '<' ∨ a = '>' ∨ a = '"' ∨ a = '\'' := by
    simpa [specialClass, or_assoc] using h
  rcases this with rfl | rfl | rfl | rfl | rfl <;> decide

/-- Every character of the Sanitizer's output is outside `< > " '`. -/
lemma replaceChars_no_quad {cs : List Char} {c : Char}
    (hm : c ∈ replaceChars specialClass escapeCharJS cs) :
    c ≠ '<' ∧ c ≠ '>' ∧ c ≠ '"' ∧ c ≠ '\'' := by
  induction cs with
  | nil => simp [replaceChars] at hm
  | cons a rest ih =>
    rw [replaceChars] at hm
    rcases List.mem_append.mp hm with hL | hR
    · by_cases h : specialClass a = true
      · rw [if_pos h] at hL
        exact escapeCharJS_no_quad h c hL
      · rw [if_neg h] at hL
        have hc : c = a := by simpa using hL
        subst hc
        refine ⟨?_, ?_, ?_, ?_⟩ <;> (intro heq; subst heq; simp [specialClass] at h)
    · exact ih hR

/-- On a list free of `< > " '`, the full Sanitizer pass coincides with
replacing only `&`. -/
lemma replaceChars_eq_ampOnly {cs : List Char}
    (h : ∀ c ∈ cs, c ≠ '<' ∧ c ≠ '>' ∧ c ≠ '"' ∧ c ≠ '\'') :
    replaceChars specialClass escapeCharJS cs
      = replaceChars (fun c => c = '&') (fun _ => "&amp;".data) cs := by
  induction cs with
  | nil => rfl
  | cons c rest ih =>
    have hc := h c (List.mem_cons_self c rest)
    have hrest : ∀ c ∈ rest, c ≠ '<' ∧ c ≠ '>' ∧ c ≠ '"' ∧ c ≠ '\'' :=
      fun x hx => h x (List.mem_cons_of_mem _ hx)
    rw [replaceChars, replaceChars, ih hrest]
    congr 1
    by_cases h1 : c = '&'
    · subst h1; rfl
    · rw [specialClass_false h1 hc.1 hc.2.1 hc.2.2.1 hc.2.2.2]
      simp [h1]

/-! ## Lemmas about the rendering pipeline -/

lemma exBind_ok {α β : Type} (a : α) (f : α → Except JSError β) :
    (Except.ok a >>= f) = f a := rfl

lemma exBind_error {α β : Type} (err : JSError) (f : α → Except JSError β) :
    ((Except.error err : Except JSError α) >>= f) = Except.error err := rfl

lemma exPure_eq_ok {α : Type} (a : α) : (pure a : Except JSError α) = Except.ok a := rfl

/-- Escaping a list of string values succeeds with the escaped strings in
order. -/
lemma mapMexcept_escape_strs (ts : List String) :
    mapMexcept escapeHtmlJS (ts.map JSValue.str) = .ok (ts.map escapeHtml) := by
  induction ts with
  | nil => rfl
  | cons t rest ih =>
    simp [mapMexcept, escapeHtmlJS, ih, exBind_ok]

/-- One throwing element poisons the whole traversal. -/
lemma mapMexcept_error_of_mem {α β : Type} {f : α → Except JSError β}
    {as : List α} {a : α} (ha : a ∈ as) (hf : f a = .error .typeError) :
    mapMexcept f as = .error .typeError := by
  induction as with
  | nil => cases ha
  | cons b rest ih =>
    rcases List.mem_cons.mp ha with rfl | hmem
    · simp [mapMexcept, hf, exBind_error]
    · cases hb : f b with
      | error e => cases e; simp [mapMexcept, hb, exBind_error]
      | ok v =>
        simp [mapMexcept, hb, exBind_ok, ih hmem, exBind_error]

/-- A successful `createPostElement` determines every fragment of the
produced element. -/
lemma createPostElement_ok {p : Post} {e : PostElement}
    (h : createPostElement p = .ok e) :
    ∃ img tags title exc auth link,
      imageHTMLof p = .ok img ∧ tagsHTMLof p = .ok tags ∧
      escapeHtmlJS p.title = .ok title ∧ excerptHtmlOf p = .ok exc ∧
      authorHtmlOf p = .ok auth ∧ linkHrefOf p = .ok link ∧
      e = { dataId := p.id, imageHTML := img, titleHtml := title,
            excerptHtml := exc, tagsHTML := tags,
            dateText := formatDate p.date, authorHtml := auth,
            linkHref := link, display := "" } := by
  rw [createPostElement] at h
  cases h1 : imageHTMLof p with
  | error err => rw [h1, exBind_error] at h; cases h
  | ok img =>
  rw [h1, exBind_ok] at h
  cases h2 : tagsHTMLof p with
  | error err => rw [h2, exBind_error] at h; cases h
  | ok tags =>
  rw [h2, exBind_ok] at h
  cases h3 : escapeHtmlJS p.title with
  | error err => rw [h3, exBind_error] at h; cases h
  | ok title =>
  rw [h3, exBind_ok] at h
  cases h4 : excerptHtmlOf p with
  | error err => rw [h4, exBind_error] at h; cases h
  | ok exc =>
  rw [h4, exBind_ok] at h
  cases h5 : authorHtmlOf p with
  | error err => rw [h5, exBind_error] at h; cases h
  | ok auth =>
  rw [h5, exBind_ok] at h
  cases h6 : linkHrefOf p with
  | error err => rw [h6, exBind_error] at h; cases h
  | ok link =>
  rw [h6, exBind_ok, exPure_eq_ok] at h
  injection h with h7
  subst h7
  exact ⟨img, tags, title, exc, auth, link, rfl, rfl, rfl, rfl, rfl, rfl, rfl⟩

/-- A non-string title makes `createPostElement` throw. -/
lemma createPostElement_error_of_title {p : Post} (h : isStr p.title = false) :
    createPostElement p = .error .typeError := by
  have htitle : escapeHtmlJS p.title = .error .typeError := by
    cases hv : p.title <;> simp_all [escapeHtmlJS, isStr]
  cases h1 : imageHTMLof p with
  | error err => cases err; simp [createPostElement, h1, exBind_error]
  | ok img =>
    cases h2 : tagsHTMLof p with
    | error err => cases err; simp [createPostElement, h1, h2, exBind_ok, exBind_error]
    | ok tags =>
      simp [createPostElement, h1, h2, htitle, exBind_ok, exBind_error]

/-- One record with a non-string title makes the whole render throw. -/
lemma renderPosts_error_of_bad_title {c : ContainerContent} {posts : List Post}
    {p : Post} (hp : p ∈ posts) (ht : isStr p.title = false) :
    renderPosts (some c) posts = .error .typeError := by
  have hne : ¬posts.length = 0 := by
    cases posts
    · cases hp
    · simp
  rw [renderPosts]
  rw [if_neg hne,
    mapMexcept_error_of_mem hp (createPostElement_error_of_title ht), exBind_error]

/-! ## Lemmas about the filters -/

/-- The matching step tests the prefix relation. -/
lemma leadsList_iff (n : List Char) : ∀ h : List Char,
    leadsList n h = true ↔ n <+: h := by
  induction n with
  | nil => intro h; simp [leadsList]
  | cons a as ih =>
    intro h
    cases h with
    | nil => simp [leadsList]
    | cons b bs => simp [leadsList, ih, List.cons_prefix_cons]

/-- The position-by-position scan tests the substring relation. -/
lemma listIndexSearch_iff (n : List Char) : ∀ h : List Char,
    listIndexSearch n h = true ↔ n <:+: h := by
  intro h
  induction h with
  | nil => cases n <;> simp [listIndexSearch]
  | cons b bs ih =>
    rw [listIndexSearch]
    simp [leadsList_iff, ih, List.infix_cons_iff]

/-- `includes` reflects the substring relation. -/
lemma jsIncludes_iff {hay needle : String} :
    jsIncludes hay needle = true ↔ needle.data <:+: hay.data :=
  listIndexSearch_iff needle.data hay.data

/-- The search outcome ignores the incoming `display` values. -/
lemma searchPosts_display_irrelevant (q : String) (posts : List PostElement)
    (f : PostElement → String) :
    searchPosts q (posts.map fun e => { e with display := f e })
      = searchPosts q posts := by
  rw [searchPosts, searchPosts, List.map_map]
  exact List.map_congr_left fun a _ => rfl

/-! ## The claims -/

/-- C1: the Formatter evaluated at the claim's inputs.  An absent or empty
input yields `""` and `"2024-03-15"` renders as `"March 15, 2024"`, but
`"not-a-date"` — an input whose date construction fails (yields an Invalid
Date) — returns the string `"Invalid Date"`, not the original input text:
`new Date` and `toLocaleDateString` never throw, so the source's `catch`
fallback (`return dateString`) is dead code. -/
theorem formatDate_not_a_date_eval :
    formatDate none = "" ∧ formatDate (some "") = "" ∧
    formatDate (some "2024-03-15") = "March 15, 2024" ∧
    formatDate (some "not-a-date") = "Invalid Date" ∧
    formatDate (some "not-a-date") ≠ "not-a-date" :=
  ⟨rfl, by decide, by decide, by decide, by decide⟩

/-- C2: every failure of the load sequence — network failure, non-success
HTTP status, JSON parse failure — is caught inside `loadPosts` (which is
total: no error propagates), and the container's content becomes exactly
the fixed escaped error message, which escaping leaves unchanged, with
zero per-record blocks. -/
theorem loadPosts_failure_shows_error :
    (∀ c : ContainerContent, loadPosts (some c) .networkError
        = some (.rawHTML (errorBoxHTML (escapeHtml errorMessage)))) ∧
    (∀ (c : ContainerContent) (status : Nat),
      loadPosts (some c) (.badStatus status)
        = some (.rawHTML (errorBoxHTML (escapeHtml errorMessage)))) ∧
    (∀ c : ContainerContent, loadPosts (some c) .jsonError
        = some (.rawHTML (errorBoxHTML (escapeHtml errorMessage)))) ∧
    escapeHtml errorMessage = errorMessage ∧
    postBlocks (.rawHTML (errorBoxHTML (escapeHtml errorMessage))) = [] :=
  ⟨fun _ => rfl, fun _ _ => rfl, fun _ => rfl, by decide, rfl⟩

/-- C3: the Sanitizer coincides, character by character and in place, with
the spec's substitution table: `&`, `<`, `>`, `"`, `'` become their
entities and every other character maps to itself. -/
theorem escapeHtml_matches_spec :
    (∀ s : String, escapeHtml s = escapeHtmlSpec s) ∧
    sanitizeSpecChar '&' = "&amp;" ∧ sanitizeSpecChar '<' = "&lt;" ∧
    sanitizeSpecChar '>' = "&gt;" ∧ sanitizeSpecChar '"' = "&quot;" ∧
    sanitizeSpecChar '\'' = "&#039;" ∧
    (∀ c : Char, c ≠ '&' → c ≠ '<' → c ≠ '>' → c ≠ '"' → c ≠ '\'' →
      sanitizeSpecChar c = String.singleton c) := by
  refine ⟨?_, rfl, rfl, rfl, rfl, rfl, ?_⟩
  · intro s
    cases s with
    | mk data => exact congrArg String.mk (replaceChars_eq_flatMap_sanitize data)
  · intro c h1 h2 h3 h4 h5
    rw [sanitizeSpecChar.eq_def]
    split <;> simp_all

/-- C3, instantiated: the Sanitizer agrees with the spec table on a string
holding all five special characters, and `x` maps to itself. -/
theorem escapeHtml_matches_spec_witness :
    escapeHtml "a&b<c>\"'" = escapeHtmlSpec "a&b<c>\"'" ∧
    sanitizeSpecChar 'x' = String.singleton 'x' :=
  ⟨escapeHtml_matches_spec.1 "a&b<c>\"'",
   escapeHtml_matches_spec.2.2.2.2.2.2 'x' (by decide) (by decide) (by decide)
     (by decide) (by decide)⟩

/-- C4: on any input containing a special character, the Sanitizer's
output has no raw occurrence of the five characters (every `&` in it
begins an entity), and re-escaping an already-escaped string only performs
the expected double-escaping: it equals the `&`-to-`&amp;` pass, and one
decode step recovers the singly-escaped string intact. -/
theorem escapeHtml_no_raw_specials (s : String) (hs : containsSpecial s = true) :
    noRawSpecials (escapeHtml s) = true ∧
    escapeHtml (escapeHtml s) = escapeAmpOnly (escapeHtml s) ∧
    htmlDecode (escapeHtml (escapeHtml s)) = escapeHtml s := by
  refine ⟨rawFree_replaceChars s.data, ?_, htmlDecode_escapeHtml _⟩
  exact congrArg String.mk (replaceChars_eq_ampOnly fun c hc => replaceChars_no_quad hc)

/-- C4, instantiated at `"a&<b"`. -/
theorem escapeHtml_no_raw_specials_witness :
    containsSpecial "a&<b" = true ∧
    (noRawSpecials (escapeHtml "a&<b") = true ∧
     escapeHtml (escapeHtml "a&<b") = escapeAmpOnly (escapeHtml "a&<b") ∧
     htmlDecode (escapeHtml (escapeHtml "a&<b")) = escapeHtml "a&<b") :=
  ⟨by decide, escapeHtml_no_raw_specials "a&<b" (by decide)⟩

/-- C5: rendering an empty record array replaces any container content
with exactly the fixed "no posts" placeholder markup (class `no-posts`,
text `No posts available.`) and zero per-record blocks. -/
theorem renderPosts_empty_shows_placeholder :
    (∀ c : ContainerContent,
      renderPosts (some c) [] = .ok (some (.rawHTML noPostsHTML))) ∧
    noPostsHTML = "<p class=\"no-posts\">No posts available.</p>" ∧
    postBlocks (.rawHTML noPostsHTML) = [] :=
  ⟨fun _ => rfl, rfl, rfl⟩

/-- C6: a tag block is rendered exactly when the tags field is an array:
an array of strings yields one tag per entry, escaped, in array order,
while any non-array value yields no tag block. -/
theorem tags_rendered_iff_array :
    (∀ (p : Post) (e : PostElement) (ts : List String),
      p.tags = .arr (ts.map JSValue.str) → createPostElement p = .ok e →
      e.tagsHTML = some (ts.map escapeHtml)) ∧
    (∀ (p : Post) (e : PostElement), isArray p.tags = false →
      createPostElement p = .ok e → e.tagsHTML = none) := by
  constructor
  · intro p e ts hts h
    obtain ⟨img, tags, title, exc, auth, link, h1, h2, h3, h4, h5, h6, rfl⟩ :=
      createPostElement_ok h
    show tags = some (ts.map escapeHtml)
    rw [tagsHTMLof, hts] at h2
    simp [truthy, isArray, arrElems, mapMexcept_escape_strs, exBind_ok,
      exPure_eq_ok] at h2
    exact h2.symm
  · intro p e hArr h
    obtain ⟨img, tags, title, exc, auth, link, h1, h2, h3, h4, h5, h6, rfl⟩ :=
      createPostElement_ok h
    show tags = none
    rw [tagsHTMLof, hArr] at h2
    simp [exPure_eq_ok] at h2
    exact h2.symm

/-- C6, instantiated: tags `["a", "b"]` render as exactly the two escaped
tags in order, and the string `"not-an-array"` renders no tag block. -/
theorem tags_rendered_iff_array_witness :
    (postC6.tags = .arr (["a", "b"].map JSValue.str) ∧
     createPostElement postC6 = .ok elemC6 ∧
     elemC6.tagsHTML = some (["a", "b"].map escapeHtml)) ∧
    (isArray postC6b.tags = false ∧ createPostElement postC6b = .ok elemC6b ∧
     elemC6b.tagsHTML = none) :=
  ⟨⟨rfl, rfl, tags_rendered_iff_array.1 postC6 elemC6 ["a", "b"] rfl rfl⟩,
   ⟨rfl, rfl, tags_rendered_iff_array.2 postC6b elemC6b rfl rfl⟩⟩

/-- C7 is refuted at `postC7`: its excerpt field is present — the empty
string — yet the rendered excerpt is the escaped *description* `"d"`, not
the escaped excerpt `""`, because `post.excerpt || post.description || ''`
falls through on any falsy excerpt. -/
theorem excerpt_empty_string_counterexample :
    postC7.excerpt = .str "" ∧
    (createPostElement postC7).toOption.map PostElement.excerptHtml = some "d" ∧
    escapeHtml "" = "" ∧ ("d" : String) ≠ "" :=
  ⟨rfl, rfl, rfl, by decide⟩

/-- C7 amended: the rendered excerpt equals the escaped excerpt when the
excerpt field is a non-empty string; when the excerpt is absent or falsy
and the description is a non-empty string, it equals the escaped
description; and when both are absent or falsy, it is the empty text. -/
theorem excerpt_fallback_amended :
    (∀ (p : Post) (e : PostElement) (s : String), p.excerpt = .str s → s ≠ "" →
      createPostElement p = .ok e → e.excerptHtml = escapeHtml s) ∧
    (∀ (p : Post) (e : PostElement) (s : String), truthy p.excerpt = false →
      p.description = .str s → s ≠ "" →
      createPostElement p = .ok e → e.excerptHtml = escapeHtml s) ∧
    (∀ (p : Post) (e : PostElement), truthy p.excerpt = false →
      truthy p.description = false →
      createPostElement p = .ok e → e.excerptHtml = "") := by
  refine ⟨?_, ?_, ?_⟩
  · intro p e s hexc hs h
    obtain ⟨img, tags, title, exc, auth, link, h1, h2, h3, h4, h5, h6, rfl⟩ :=
      createPostElement_ok h
    show exc = escapeHtml s
    rw [excerptHtmlOf, hexc] at h4
    simp [jsOr, truthy, hs, escapeHtmlJS] at h4
    exact h4.symm
  · intro p e s hfals hdesc hs h
    obtain ⟨img, tags, title, exc, auth, link, h1, h2, h3, h4, h5, h6, rfl⟩ :=
      createPostElement_ok h
    show exc = escapeHtml s
    rw [excerptHtmlOf, hdesc] at h4
    simp only [jsOr, hfals, Bool.false_eq_true, if_false] at h4
    simp [truthy, hs, escapeHtmlJS] at h4
    exact h4.symm
  · intro p e hfe hfd h
    obtain ⟨img, tags, title, exc, auth, link, h1, h2, h3, h4, h5, h6, rfl⟩ :=
      createPostElement_ok h
    show exc = ""
    rw [excerptHtmlOf] at h4
    simp only [jsOr, hfe, hfd, Bool.false_eq_true, if_false] at h4
    simp [escapeHtmlJS] at h4
    have h0 : escapeHtml "" = "" := rfl
    rw [h0] at h4
    exact h4.symm

/-- C7 amended, instantiated on the three record shapes. -/
theorem excerpt_fallback_amended_witness :
    elemC7a.excerptHtml = escapeHtml "An excerpt" ∧
    elemC7b.excerptHtml = escapeHtml "A description" ∧
    elemC7c.excerptHtml = "" :=
  ⟨excerpt_fallback_amended.1 postC7a elemC7a "An excerpt" rfl (by decide) rfl,
   excerpt_fallback_amended.2.1 postC7b elemC7b "A description" rfl rfl
     (by decide) rfl,
   excerpt_fallback_amended.2.2 postC7c elemC7c rfl rfl rfl⟩

/-- C8: after `filterByTag tag`, an element is displayed (`block`) iff the
tag is exactly the text content of one of its rendered tag elements, and
hidden (`none`) otherwise. -/
theorem filterByTag_visible_iff (tag : String) (posts : List PostElement)
    (e : PostElement) (he : e ∈ filterByTag tag posts) :
    (e.display = "block" ↔ tag ∈ tagTextContents e) ∧
    (tag ∉ tagTextContents e → e.display = "none") := by
  rcases List.mem_map.mp he with ⟨a, ha, rfl⟩
  show ((if (tagTextContents a).contains tag then "block" else "none") = "block"
      ↔ tag ∈ tagTextContents a) ∧
    (tag ∉ tagTextContents a →
      (if (tagTextContents a).contains tag then "block" else "none") = "none")
  by_cases h : tag ∈ tagTextContents a
  · simp [h]
  · simp [h]

/-- C8, instantiated: with two rendered posts, one tagged `x` and one
tagged `y`, `filterByTag "x"` shows exactly the first. -/
theorem filterByTag_visible_iff_witness :
    filterByTag "x" [elemTagX, elemTagY] = [elemTagXshown, elemTagYhidden] ∧
    (elemTagXshown.display = "block" ↔ "x" ∈ tagTextContents elemTagXshown) ∧
    ("x" ∉ tagTextContents elemTagYhidden → elemTagYhidden.display = "none") := by
  have hfilter : filterByTag "x" [elemTagX, elemTagY]
      = [elemTagXshown, elemTagYhidden] := rfl
  refine ⟨hfilter, ?_, ?_⟩
  · exact (filterByTag_visible_iff "x" [elemTagX, elemTagY] elemTagXshown
      (by rw [hfilter]; exact List.Mem.head _)).1
  · exact (filterByTag_visible_iff "x" [elemTagX, elemTagY] elemTagYhidden
      (by rw [hfilter]; exact List.Mem.tail _ (List.Mem.head _))).2

/-- C9: after `searchPosts query`, an element is displayed (`block`) iff
the lower-cased query is a substring of its lower-cased title text or of
its lower-cased excerpt text, and hidden (`none`) otherwise; and each
invocation fully re-evaluates, with no memory of a previous search or
filter. -/
theorem searchPosts_visible_iff :
    (∀ (q : String) (posts : List PostElement) (e : PostElement),
      e ∈ searchPosts q posts →
      (e.display = "block" ↔
        ((toLowerStr q).data <:+: (toLowerStr (titleText e)).data ∨
         (toLowerStr q).data <:+: (toLowerStr (excerptText e)).data))) ∧
    (∀ (q q2 tag : String) (posts : List PostElement),
      searchPosts q (searchPosts q2 posts) = searchPosts q posts ∧
      searchPosts q (filterByTag tag posts) = searchPosts q posts) := by
  constructor
  · intro q posts e he
    rcases List.mem_map.mp he with ⟨a, ha, rfl⟩
    show (if (jsIncludes (toLowerStr (titleText a)) (toLowerStr q)
            || jsIncludes (toLowerStr (excerptText a)) (toLowerStr q))
          then "block" else "none") = "block"
        ↔ ((toLowerStr q).data <:+: (toLowerStr (titleText a)).data ∨
           (toLowerStr q).data <:+: (toLowerStr (excerptText a)).data)
    by_cases h : (jsIncludes (toLowerStr (titleText a)) (toLowerStr q)
        || jsIncludes (toLowerStr (excerptText a)) (toLowerStr q)) = true
    · rw [if_pos h]
      simp only [Bool.or_eq_true, jsIncludes_iff] at h
      simp [h]
    · rw [if_neg h]
      constructor
      · intro habs; exact absurd habs (by decide)
      · intro hor
        exfalso
        apply h
        simpa [Bool.or_eq_true, jsIncludes_iff] using hor
  · intro q q2 tag posts
    constructor
    · exact searchPosts_display_irrelevant q posts _
    · exact searchPosts_display_irrelevant q posts _

/-- C9, instantiated: searching `cat` shows the post titled
`On Category Theory` and hides the post titled `On Dogs` whose excerpt
also lacks `cat`; a repeated search gives the same result as a fresh
one. -/
theorem searchPosts_visible_iff_witness :
    (elemCatShown.display = "block" ↔
      ((toLowerStr "cat").data <:+: (toLowerStr (titleText elemCatShown)).data ∨
       (toLowerStr "cat").data <:+: (toLowerStr (excerptText elemCatShown)).data)) ∧
    searchPosts "cat" (searchPosts "dog" [elemCat, elemDog])
      = searchPosts "cat" [elemCat, elemDog] := by
  have hsearch : searchPosts "cat" [elemCat, elemDog]
      = [elemCatShown, elemDogHidden] := rfl
  refine ⟨?_, (searchPosts_visible_iff.2 "cat" "dog" "x" [elemCat, elemDog]).1⟩
  exact searchPosts_visible_iff.1 "cat" [elemCat, elemDog] elemCatShown
    (by rw [hsearch]; exact List.Mem.head _)

/-- C10: the Sanitizer throws a `TypeError` on every non-string value;
hence a single record with a missing or non-string title aborts the whole
render, the error is caught at the Loader boundary, and the container
shows the fixed error message — every record, including well-formed ones,
is discarded. -/
theorem missing_title_aborts_render :
    (∀ v : JSValue, isStr v = false → escapeHtmlJS v = .error .typeError) ∧
    (∀ p : Post, isStr p.title = false →
      createPostElement p = .error .typeError) ∧
    (∀ (c : ContainerContent) (posts : List Post) (p : Post), p ∈ posts →
      isStr p.title = false →
      loadPosts (some c) (.ok posts)
        = some (.rawHTML (errorBoxHTML (escapeHtml errorMessage)))) := by
  refine ⟨?_, fun p h => createPostElement_error_of_title h, ?_⟩
  · intro v h
    cases v <;> simp_all [escapeHtmlJS, isStr]
  · intro c posts p hp ht
    simp only [loadPosts, renderPosts_error_of_bad_title hp ht]
    rfl

/-- C10, instantiated: one record lacking a title makes the Loader discard
the well-formed record too and show the error box. -/
theorem missing_title_aborts_render_witness :
    escapeHtmlJS .undefined = .error .typeError ∧
    createPostElement postBad = .error .typeError ∧
    loadPosts (some (.rendered [])) (.ok [postGood, postBad])
      = some (.rawHTML (errorBoxHTML (escapeHtml errorMessage))) :=
  ⟨missing_title_aborts_render.1 .undefined rfl,
   missing_title_aborts_render.2.1 postBad rfl,
   missing_title_aborts_render.2.2 (.rendered []) [postGood, postBad] postBad
     (List.Mem.tail _ (List.Mem.head _)) rfl⟩

end PostRenderer
